import Mathlib

/-!
Verification of the PAI resilience-and-context core against its
natural-language specification.

The definitions below are a shallow embedding, in Lean 4, of the Python
sources under src/pai:

* providers/param_policy.py  (PolicyRule, ParamPolicy.evaluate)
* storage/transcript.py      (Transcript construction, append_message, resume)
* core/context.py            (TokenCounter, ContextPolicy, ContextWindowManager.apply)
* core/chat_session.py       (ChatSession.run_turn_stream finalization)
* resilience/resilient_provider.py (ResiliencePolicy, ResilientProvider.chat,
  ResilientProvider.chat_stream)

Python dicts are modelled as association lists in insertion order, Python
lists as Lean lists, machine floats used only for comparisons (delays,
timeouts) as integers, and exceptions as Except / explicit outcome types.
External collaborators (the regex engine, the json codec, the wall clock,
the random jitter) are modelled at the narrow interface the code uses.
-/

/-! # Parameter policy (src/pai/providers/param_policy.py) -/

/-- A parameter map (`Dict[str, Any]` in the source), modelled as an
association list in insertion order with string values standing in for
arbitrary Python values; the policy code only ever looks at keys. -/
abbrev Params := List (String × String)

/-- Membership test for a key, mirroring `k in effective` on a dict. -/
def Params.hasKey (ps : Params) (k : String) : Bool :=
  (ps : List (String × String)).any (fun kv => kv.1 == k)

/-- Removal of one key, mirroring `effective.pop(k, None)` on a dict
(the dict holds each key at most once; filtering removes that entry). -/
def Params.eraseKey (ps : Params) (k : String) : Params :=
  (ps : List (String × String)).filter (fun kv => kv.1 != k)

/-- The model-name pattern of a rule. The source compiles the YAML string
with Python `re` (an external collaborator) and calls `regex.search`.
Modelled for the fragment of regexes this repository's policies use:
a literal string, optionally anchored at the start with a leading caret.
`search` semantics (match anywhere in the model name, or at its start when
anchored), not full-match. -/
structure PolicyPattern where
  anchored : Bool
  literal : String
deriving DecidableEq, Repr

/-- `regex.search(model)` as a Boolean: an anchored pattern matches a
prefix of the model name, an unanchored one matches any infix. -/
def PolicyPattern.search (p : PolicyPattern) (model : String) : Bool :=
  if p.anchored then p.literal.toList.isPrefixOf model.toList
  else decide (p.literal.toList <:+: model.toList)

/-- `PolicyRule` from param_policy.py: pattern, action ("allow" | "drop"
| "reject"), listed params, optional message. -/
structure PolicyRule where
  pattern : PolicyPattern
  action : String
  params : List String
  message : Option String
deriving DecidableEq, Repr

/-- `ParamPolicy`: the ordered rule list. -/
structure ParamPolicy where
  rules : List PolicyRule
deriving DecidableEq, Repr

/-- Python truthiness fallback `m or dflt` for an optional string:
`None` and the empty string both fall back. -/
def pyOrElse (m : Option String) (dflt : String) : String :=
  match m with
  | some s => if s = "" then dflt else s
  | none => dflt

/-- The comma-separated body of the Python `repr` of a list of strings:
each element single-quoted, separated by comma-space. -/
def pyListReprGo : List String → String
  | [] => ""
  | [k] => "'" ++ k ++ "'"
  | k :: rest => "'" ++ k ++ "', " ++ pyListReprGo rest

/-- Python `repr` of a list of strings, as an f-string interpolates it:
brackets, single quotes, comma-space separators. -/
def pyListRepr (xs : List String) : String :=
  "[" ++ pyListReprGo xs ++ "]"

/-- Lexicographic comparison of code-point sequences: Python string `<=`. -/
def charListLe : List Char → List Char → Bool
  | [], _ => true
  | _ :: _, [] => false
  | a :: as, b :: bs =>
      if a.toNat < b.toNat then true
      else if a.toNat = b.toNat then charListLe as bs
      else false

/-- Python string `a <= b` (code-point lexicographic order). -/
def strLe (a b : String) : Bool := charListLe a.toList b.toList

/-- Insertion into a sorted list under `strLe`. -/
def insertSorted (x : String) : List String → List String
  | [] => [x]
  | y :: ys => if strLe x y then x :: y :: ys else y :: insertSorted x ys

/-- Python `sorted` on a list of strings (insertion sort under `strLe`). -/
def sortStrings : List String → List String
  | [] => []
  | x :: xs => insertSorted x (sortStrings xs)

/-- `sorted([k for k in params if k in effective])`: the listed params
(a Python set, hence deduplicated) that are present in the map, sorted. -/
def presentListedKeys (listed : List String) (ps : Params) : List String :=
  sortStrings (listed.dedup.filter (fun k => ps.hasKey k))

/-- The warning / error text `rule.message or f"... for model '{model}': {keys}"`
with the default enumerating the affected keys. -/
def ruleText (message : Option String) (prefixText : String) (model : String)
    (keys : List String) : String :=
  pyOrElse message (prefixText ++ " for model '" ++ model ++ "': " ++ pyListRepr keys)

/-- The first rule whose pattern matches the model
(`next((r for r in self.rules if r.regex.search(model)), None)`). -/
def ParamPolicy.firstMatch (pol : ParamPolicy) (model : String) : Option PolicyRule :=
  pol.rules.find? (fun r => r.pattern.search model)

/-- `ParamPolicy.evaluate(model, raw_params, default_action)`.
Fails (raises `ValueError` in the source) through `Except.error`; the source
copies `raw_params` into `effective` before acting, so the caller's map is a
value the call never mutates. -/
def ParamPolicy.evaluate (pol : ParamPolicy) (model : String) (rawParams : Params)
    (defaultAction : String) : Except String (Params × List String) :=
  let effective : Params := rawParams
  let rule? := pol.firstMatch model
  let action := match rule? with | some r => r.action | none => defaultAction
  let listed := match rule? with | some r => r.params | none => []
  let message := match rule? with | some r => r.message | none => none
  if action = "drop" then
    let dropped := presentListedKeys listed effective
    let effective := dropped.foldl (fun eff k => eff.eraseKey k) effective
    let warnings := if dropped.isEmpty then ([] : List String)
      else [ruleText message "Dropping unsupported params" model dropped]
    .ok (effective, warnings)
  else if action = "reject" then
    let bad := presentListedKeys listed effective
    if bad.isEmpty then .ok (effective, [])
    else .error (ruleText message "Unsupported params" model bad)
  else
    .ok (effective, [])

/-! # Transcript (src/pai/storage/transcript.py) -/

/-- One line of the durable JSONL record stream. The json codec is an
external collaborator whose encode/decode round-trips a record; a line it
cannot parse is `malformed` (the loader skips it). -/
inductive TRecord
| header (meta : List (String × String))
| message (role : String) (content : String) (status : String)
| malformed
deriving DecidableEq, Repr

/-- The roles the loader projects (`('system', 'user', 'assistant')`). -/
def validRoles : List String := ["system", "user", "assistant"]

/-- An in-memory message: the role/content projection of a record. -/
structure Msg where
  role : String
  content : String
deriving DecidableEq, Repr

/-- The projection of one record as `_load_from_file` performs it: only
`message` records with a valid role survive, as `{'role': ..., 'content': ...}`. -/
def projectRecord : TRecord → Option Msg
  | .message r c _ => if validRoles.contains r then some ⟨r, c⟩ else none
  | _ => none

/-- `_load_from_file`: replay the record stream in order, skipping
blank/malformed lines, headers, and messages with foreign roles. -/
def projectMessages (recs : List TRecord) : List Msg :=
  recs.filterMap projectRecord

/-- A `Transcript`: the durable (or in-memory `_records`) stream plus the
in-memory message projection `_messages`. -/
structure Transcript where
  records : List TRecord
  messages : List Msg
deriving DecidableEq, Repr

/-- Construction with a durable root and no existing log: write a header
record then the system-prompt message record, and start the in-memory view
at the system message. -/
def Transcript.initDurableFresh (systemPrompt : String)
    (headerMeta : List (String × String)) : Transcript :=
  { records := [.header headerMeta, .message "system" systemPrompt "complete"],
    messages := [⟨"system", systemPrompt⟩] }

/-- Construction with no durable root: pure in-memory, emitting the same
header and system-message records into `_records`. -/
def Transcript.initInMemory (systemPrompt : String)
    (headerMeta : List (String × String)) : Transcript :=
  { records := [.header headerMeta, .message "system" systemPrompt "complete"],
    messages := [⟨"system", systemPrompt⟩] }

/-- Construction with a durable root and an existing non-empty log for the
session id: replay it, then, if the replayed list lacks a leading system
message, insert one synthesized from the configured system prompt. The file
itself is not rewritten. -/
def Transcript.initResume (systemPrompt : String) (existing : List TRecord) : Transcript :=
  let msgs := projectMessages existing
  { records := existing,
    messages :=
      match msgs with
      | [] => [⟨"system", systemPrompt⟩]
      | m0 :: _ => if m0.role != "system" then ⟨"system", systemPrompt⟩ :: msgs else msgs }

/-- `append_message(role, content, status)`: write one message record to the
stream, and extend the in-memory view when the role is a valid one. -/
def Transcript.appendMessage (t : Transcript) (role content status : String) : Transcript :=
  { records := t.records ++ [.message role content status],
    messages := if validRoles.contains role then t.messages ++ [⟨role, content⟩] else t.messages }

/-- A sequence of `append_message(role, content, status)` calls, oldest
first, applied to a transcript. -/
def foldAppends (appends : List (String × String × String)) (t0 : Transcript) : Transcript :=
  appends.foldl (fun t rcs => t.appendMessage rcs.1 rcs.2.1 rcs.2.2) t0

/-! # ChatSession.run_turn_stream (src/pai/core/chat_session.py)

The returned generator accumulates every chunk it yields in `partial`; its
`finally` block appends the accumulated text to the transcript when it is
non-empty — with `append_message`'s default status, which is 'complete'.
Python runs the `finally` block exactly once when the generator is exhausted,
raises, or is closed after having started; closing a generator that was
never started does not enter its body at all. -/

/-- The observable result of one consumed streamed turn: the transcript, how
many times the finalizer ran, the chunks the caller received, and whether an
inner failure propagated to the caller. -/
structure StreamTurnRun where
  t : Transcript
  finCount : Nat
  yielded : List String
  failed : Bool
deriving DecidableEq, Repr

/-- The generator's `finally` block: `if partial: transcript.append_message(
'assistant', ''.join(partial))` — status defaulting to 'complete'. -/
def finalizeTurn (acc : List String) (t : Transcript) : Transcript :=
  if acc.isEmpty then t else t.appendMessage "assistant" (String.join acc) "complete"

/-- Consumption of the turn's generator. `chunks` is what the inner provider
stream will produce, `innerFails` whether it raises after its last chunk
instead of ending; `demand = some k` means the caller consumes `k` chunks and
then closes the generator, `none` that it consumes to the end. Each terminal
path runs the finalizer once before control leaves the generator. -/
def consumeTurnStream (innerFails : Bool) :
    List String → Option Nat → List String → Transcript → StreamTurnRun
  | _, some 0, acc, t => ⟨finalizeTurn acc t, 1, [], false⟩
  | [], _, acc, t => ⟨finalizeTurn acc t, 1, [], innerFails⟩
  | c :: rest, d, acc, t =>
      let r := consumeTurnStream innerFails rest (d.map (fun n => n - 1)) (acc ++ [c]) t
      ⟨r.t, r.finCount, c :: r.yielded, r.failed⟩

/-- `run_turn_stream(user_text)` as consumed by its caller: the user message
is appended up front; then the generator runs. Closing the generator before
the first read (`demand = some 0`) never enters its body, so the finalizer
does not run — and nothing was accumulated anyway. -/
def runTurnStream (t0 : Transcript) (userText : String) (chunks : List String)
    (innerFails : Bool) (demand : Option Nat) : StreamTurnRun :=
  let t1 := t0.appendMessage "user" userText "complete"
  if demand = some 0 then ⟨t1, 0, [], false⟩
  else consumeTurnStream innerFails chunks demand [] t1

/-! # Context window (src/pai/core/context.py) -/

/-- `_rough_token_count`: the deterministic fallback heuristic, about one
token per four characters, at least 1 for non-empty text. -/
def roughTokenCount (t : String) : Nat :=
  if t = "" then 0 else max 1 ((t.length + 3) / 4)

/-- `TokenCounter.count_messages`: a fixed overhead of 4 per message plus
the token length of its content. The per-text counter is a parameter: the
source picks tiktoken when available and the heuristic otherwise, and uses
the one instance consistently within a trimming decision. -/
def countMessages (countText : String → Nat) (ms : List Msg) : Nat :=
  (ms.map (fun m => 4 + countText m.content)).sum

/-- `ContextPolicy`. The fields are Python ints. -/
structure ContextPolicy where
  maxInputTokens : Int
  responseReserveTokens : Int
  alwaysKeepLastN : Int
deriving DecidableEq, Repr

/-- `target = max(1, max_input_tokens - max(0, response_reserve_tokens))`. -/
def targetBudget (p : ContextPolicy) : Int :=
  max 1 (p.maxInputTokens - max 0 p.responseReserveTokens)

/-- Detach a leading system message: `(system, rest)` with `system` the
one-element prefix when `messages[0]['role'] == 'system'`, else empty. -/
def splitSystem (messages : List Msg) : List Msg × List Msg :=
  match messages with
  | [] => ([], [])
  | m0 :: rest => if m0.role == "system" then ([m0], rest) else ([], m0 :: rest)

/-- `keep_tail_n = min(self.policy.always_keep_last_n, len(rest))`. -/
def keepTailN (p : ContextPolicy) (rest : List Msg) : Int :=
  min p.alwaysKeepLastN (rest.length : Int)

/-- `head = rest[:-keep_tail_n] if keep_tail_n > 0 else rest`. -/
def headPart (p : ContextPolicy) (rest : List Msg) : List Msg :=
  if 0 < keepTailN p rest then rest.take (rest.length - (keepTailN p rest).toNat) else rest

/-- `tail = rest[-keep_tail_n:] if keep_tail_n > 0 else []`. -/
def tailPart (p : ContextPolicy) (rest : List Msg) : List Msg :=
  if 0 < keepTailN p rest then rest.drop (rest.length - (keepTailN p rest).toNat) else []

/-- Python slicing `l[i:]` for a possibly negative `i`: a negative index
counts from the end and clamps at the start, so `l[-0:]` is the whole list. -/
def pySliceFrom (l : List Msg) (i : Int) : List Msg :=
  if 0 ≤ i then l.drop i.toNat else l.drop (((l.length : Int) + i).toNat)

/-- `last_user_idx = max(i for i, m in enumerate(tail) if m['role'] == 'user')`;
only evaluated under the guard that some user message is in `tail`. -/
def lastUserIdx (l : List Msg) : Nat :=
  l.length - 1 - l.reverse.findIdx (fun m => m.role == "user")

/-- The head-trimming loop: starting from `d`, with `left = len(head) - d`
iterations of fuel, advance while `d < len(head)` and
`count(system + head[d:] + tail) > target`. -/
def dropIdxGo (countText : String → Nat) (system head tail : List Msg) (target : Int) :
    Nat → Nat → Nat
  | 0, d => d
  | left + 1, d =>
      if (countMessages countText (system ++ head.drop d ++ tail) : Int) > target then
        dropIdxGo countText system head tail target left (d + 1)
      else d

/-- The value of `drop_idx` after the loop (started at 0). -/
def dropIdxOf (countText : String → Nat) (system head tail : List Msg) (target : Int) : Nat :=
  dropIdxGo countText system head tail target head.length 0

/-- The final guard loop: while still over target and more than
`len(system) + 1` messages remain, drop the oldest non-system message.
Each pass removes exactly one message, so `len(trimmed)` fuel suffices. -/
def finalGuardGo (countText : String → Nat) (system : List Msg) (target : Int) :
    Nat → List Msg → List Msg
  | 0, trimmed => trimmed
  | fuel + 1, trimmed =>
      if (countMessages countText trimmed : Int) > target ∧ system.length + 1 < trimmed.length then
        finalGuardGo countText system target fuel (system ++ trimmed.drop (system.length + 1))
      else trimmed

/-- The final guard applied to the post-safety candidate. -/
def finalGuard (countText : String → Nat) (system : List Msg) (target : Int)
    (trimmed : List Msg) : List Msg :=
  finalGuardGo countText system target trimmed.length trimmed

/-- `ContextWindowManager.apply` up to and including the safety check
(steps 1-7 of the spec): the quick-path candidate when already within
budget, otherwise `trimmed` after head-trimming and the last-user safety
re-inclusion, before the final guard runs. -/
def applyTrimmed (countText : String → Nat) (p : ContextPolicy) (messages : List Msg) :
    List Msg :=
  match messages with
  | [] => []
  | _ :: _ =>
    let sr := splitSystem messages
    let system := sr.1
    let rest := sr.2
    let target := targetBudget p
    let ktn := keepTailN p rest
    let head := headPart p rest
    let tail := tailPart p rest
    let candidate := system ++ head ++ tail
    if (countMessages countText candidate : Int) ≤ target then candidate
    else
      let d := dropIdxOf countText system head tail target
      let trimmed := system ++ head.drop d ++ tail
      if !((pySliceFrom trimmed (-ktn)).any (fun m => m.role == "user")) &&
          tail.any (fun m => m.role == "user") then
        system ++ head.drop d ++ tail.drop (lastUserIdx tail)
      else trimmed

/-- `ContextWindowManager.apply(messages)`: empty in, empty out; within
budget, the candidate unchanged; otherwise the trimmed/safety candidate run
through the final guard. -/
def applyContext (countText : String → Nat) (p : ContextPolicy) (messages : List Msg) :
    List Msg :=
  match messages with
  | [] => messages
  | _ :: _ =>
    let sr := splitSystem messages
    let system := sr.1
    let rest := sr.2
    let target := targetBudget p
    let candidate := system ++ headPart p rest ++ tailPart p rest
    if (countMessages countText candidate : Int) ≤ target then candidate
    else finalGuard countText system target (applyTrimmed countText p messages)

/-! # Resilient provider (src/pai/resilience/resilient_provider.py)

Wall-clock time is modelled by an abstract `elapsedAfter` function giving
`time.monotonic() - start` as observed in the handler of attempt `i`; the
backoff delay value (exponential with random jitter, or a server
retry-after hint, capped at `max_delay`) only feeds `time.sleep`, so the
model counts sleeps rather than computing their float lengths. -/

/-- A Python exception as `_should_retry` and the error wrapping see it:
its class (standing for the `isinstance` test against the retryable
exception tuple), its optional `status_code` attribute, its optional
`message` attribute, and its `str()`. -/
structure PyError where
  kind : String
  statusCode : Option Int
  message : Option String
  text : String
deriving DecidableEq, Repr

/-- `getattr(exc, 'message', None) or str(exc)`. -/
def errText (e : PyError) : String :=
  pyOrElse e.message e.text

/-- `ResiliencePolicy`: the fields the retry decision reads.
`retryExceptionKinds` stands for the tuple
`set(policy.retry_exceptions + OPENAI_ERRORS)` built at construction. -/
structure ResiliencePolicy where
  maxRetries : Nat
  totalTimeout : Int
  retryStatusCodes : List Int
  retryExceptionKinds : List String
deriving DecidableEq, Repr

/-- `_should_retry`: an instance of a retryable exception class, or an
integer `status_code` listed in `retry_status_codes`. -/
def shouldRetry (p : ResiliencePolicy) (e : PyError) : Bool :=
  p.retryExceptionKinds.contains e.kind ||
    (match e.statusCode with
     | some c => p.retryStatusCodes.contains c
     | none => false)

/-- What one `inner.chat(messages)` call does on attempt `i`: returns,
raises an exception, or is interrupted (`KeyboardInterrupt`). -/
inductive AttemptOutcome
| ok (content : String)
| raises (e : PyError)
| interrupt
deriving DecidableEq, Repr

/-- How `ResilientProvider.chat` ends. -/
inductive CallOutcome
| ok (content : String)
| fatal (msg : String) (cause : PyError)
| interrupted
deriving DecidableEq, Repr

/-- The observable trace of one `chat` call: inner calls made, backoff
sleeps performed, and the final outcome. -/
structure CallTrace where
  calls : Nat
  sleeps : Nat
  outcome : CallOutcome
deriving DecidableEq, Repr

/-- The `while True` loop of `chat`, entered at attempt number `attempt`.
On an exception: re-raise interrupts; fail fast when the error is not
retryable, the attempt count is exhausted, or the elapsed time has reached
`total_timeout`; otherwise sleep a backoff and go round with `attempt + 1`. -/
def chatLoop (p : ResiliencePolicy) (inner : Nat → AttemptOutcome)
    (elapsedAfter : Nat → Int) (attempt : Nat) : CallTrace :=
  match inner attempt with
  | .ok c => ⟨1, 0, .ok c⟩
  | .interrupt => ⟨1, 0, .interrupted⟩
  | .raises e =>
    if h : shouldRetry p e = false ∨ p.maxRetries ≤ attempt ∨
        p.totalTimeout ≤ elapsedAfter attempt then
      ⟨1, 0, .fatal ("Provider failed after retries: " ++ errText e) e⟩
    else
      let rest := chatLoop p inner elapsedAfter (attempt + 1)
      ⟨rest.calls + 1, rest.sleeps + 1, rest.outcome⟩
termination_by p.maxRetries - attempt
decreasing_by push_neg at h; omega

/-- `ResilientProvider.chat`: the loop from attempt 0. -/
def resilientChat (p : ResiliencePolicy) (inner : Nat → AttemptOutcome)
    (elapsedAfter : Nat → Int) : CallTrace :=
  chatLoop p inner elapsedAfter 0

/-- How one inner `chat_stream` attempt ends after producing its chunks. -/
inductive StreamEnd
| normal
| raises (e : PyError)
| interrupt
deriving DecidableEq, Repr

/-- What `inner.chat_stream(messages)` does on attempt `i`: the chunks it
produces in order, then how it ends. -/
structure StreamAttempt where
  chunks : List String
  ending : StreamEnd
deriving DecidableEq, Repr

/-- How the consumed outer stream ends. -/
inductive StreamOutcome
| completed
| fatal (msg : String) (cause : PyError)
| interrupted
deriving DecidableEq, Repr

/-- The observable trace of one fully consumed `chat_stream` call. -/
structure StreamTrace where
  chunks : List String
  calls : Nat
  sleeps : Nat
  outcome : StreamOutcome
deriving DecidableEq, Repr

/-- The generator loop of `chat_stream`, entered at attempt `attempt` with
`yielded_any` as accumulated so far. Chunks of the current attempt flow to
the caller and set `yielded_any`; a failure after any chunk was yielded is
terminal ("failed mid-reply") regardless of the retry decision, a failure
before the first chunk follows exactly the decision of `chat`. -/
def chatStreamLoop (p : ResiliencePolicy) (inner : Nat → StreamAttempt)
    (elapsedAfter : Nat → Int) (attempt : Nat) (yieldedAny : Bool) : StreamTrace :=
  let a := inner attempt
  let ya := yieldedAny || !a.chunks.isEmpty
  match a.ending with
  | .normal => ⟨a.chunks, 1, 0, .completed⟩
  | .interrupt => ⟨a.chunks, 1, 0, .interrupted⟩
  | .raises e =>
    if ya then
      ⟨a.chunks, 1, 0, .fatal ("Provider stream failed mid-reply: " ++ errText e) e⟩
    else if h : shouldRetry p e = false ∨ p.maxRetries ≤ attempt ∨
        p.totalTimeout ≤ elapsedAfter attempt then
      ⟨a.chunks, 1, 0, .fatal ("Provider stream failed after retries: " ++ errText e) e⟩
    else
      let rest := chatStreamLoop p inner elapsedAfter (attempt + 1) ya
      ⟨a.chunks ++ rest.chunks, rest.calls + 1, rest.sleeps + 1, rest.outcome⟩
termination_by p.maxRetries - attempt
decreasing_by push_neg at h; omega

/-- `ResilientProvider.chat_stream`, fully consumed by its caller: the
generator from attempt 0 with no chunk yet yielded. -/
def resilientChatStream (p : ResiliencePolicy) (inner : Nat → StreamAttempt)
    (elapsedAfter : Nat → Int) : StreamTrace :=
  chatStreamLoop p inner elapsedAfter 0 false

/-! # Helper lemmas -/

lemma splitSystem_append (messages : List Msg) :
    (splitSystem messages).1 ++ (splitSystem messages).2 = messages := by
  cases messages with
  | nil => rfl
  | cons m0 rest =>
      by_cases h : m0.role = "system" <;> simp [splitSystem, h]

lemma headPart_append_tailPart (p : ContextPolicy) (rest : List Msg) :
    headPart p rest ++ tailPart p rest = rest := by
  by_cases h : 0 < keepTailN p rest
  · simp only [headPart, tailPart, if_pos h]
    exact List.take_append_drop _ _
  · simp [headPart, tailPart, h]

lemma candidate_eq (p : ContextPolicy) (messages : List Msg) :
    (splitSystem messages).1 ++ headPart p (splitSystem messages).2 ++
      tailPart p (splitSystem messages).2 = messages := by
  rw [List.append_assoc, headPart_append_tailPart, splitSystem_append]

lemma applyContext_of_within (ct : String → Nat) (p : ContextPolicy) (messages : List Msg)
    (h : (countMessages ct messages : Int) ≤ targetBudget p) :
    applyContext ct p messages = messages := by
  cases messages with
  | nil => rfl
  | cons m0 rest =>
      have hc := candidate_eq p (m0 :: rest)
      simp only [applyContext]
      rw [hc, if_pos h]

/-- C10: a message list already within the budget is returned unchanged. -/
theorem claim_C10 (ct : String → Nat) (p : ContextPolicy) (messages : List Msg)
    (hres : 0 ≤ p.responseReserveTokens)
    (hbudget : (countMessages ct messages : Int) ≤
      max 1 (p.maxInputTokens - p.responseReserveTokens)) :
    applyContext ct p messages = messages ∧
    applyContext ct p (applyContext ct p messages) = messages := by
  have htarget : targetBudget p = max 1 (p.maxInputTokens - p.responseReserveTokens) := by
    unfold targetBudget
    rw [max_eq_right hres]
  have key := applyContext_of_within ct p messages (by rw [htarget]; exact hbudget)
  exact ⟨key, by rw [key, key]⟩

/-- C10 witness: a two-message list within a concrete budget is returned
unchanged, twice. -/
theorem claim_C10_witness :
    applyContext roughTokenCount ⟨100, 10, 6⟩ [⟨"system", "hi"⟩, ⟨"user", "yo"⟩] =
      [⟨"system", "hi"⟩, ⟨"user", "yo"⟩] ∧
    applyContext roughTokenCount ⟨100, 10, 6⟩
      (applyContext roughTokenCount ⟨100, 10, 6⟩ [⟨"system", "hi"⟩, ⟨"user", "yo"⟩]) =
      [⟨"system", "hi"⟩, ⟨"user", "yo"⟩] :=
  claim_C10 roughTokenCount ⟨100, 10, 6⟩ [⟨"system", "hi"⟩, ⟨"user", "yo"⟩]
    (by decide) (by decide)

lemma finalGuardGo_of_le (ct : String → Nat) (sys : List Msg) (target : Int)
    (fuel : Nat) (trimmed : List Msg) (h : (countMessages ct trimmed : Int) ≤ target) :
    finalGuardGo ct sys target fuel trimmed = trimmed := by
  cases fuel with
  | zero => rfl
  | succ n =>
      simp only [finalGuardGo]
      rw [if_neg]
      intro hc
      exact absurd hc.1 (not_lt.mpr h)

lemma finalGuard_of_le (ct : String → Nat) (sys : List Msg) (target : Int)
    (trimmed : List Msg) (h : (countMessages ct trimmed : Int) ≤ target) :
    finalGuard ct sys target trimmed = trimmed :=
  finalGuardGo_of_le ct sys target trimmed.length trimmed h

lemma mem_applyTrimmed_of_tail_getElem (ct : String → Nat) (p : ContextPolicy)
    (messages : List Msg) (u : Msg) (i : Nat)
    (hget : (tailPart p (splitSystem messages).2)[i]? = some u)
    (hdrop : lastUserIdx (tailPart p (splitSystem messages).2) ≤ i) :
    u ∈ applyTrimmed ct p messages := by
  cases messages with
  | nil =>
      simp [splitSystem, tailPart, keepTailN] at hget
  | cons m0 rest =>
      have hmem : u ∈ tailPart p (splitSystem (m0 :: rest)).2 := List.getElem?_mem hget
      have hmemdrop : u ∈ (tailPart p (splitSystem (m0 :: rest)).2).drop
          (lastUserIdx (tailPart p (splitSystem (m0 :: rest)).2)) := by
        have : ((tailPart p (splitSystem (m0 :: rest)).2).drop
            (lastUserIdx (tailPart p (splitSystem (m0 :: rest)).2)))[i -
            lastUserIdx (tailPart p (splitSystem (m0 :: rest)).2)]? = some u := by
          rw [List.getElem?_drop]
          rwa [Nat.add_sub_cancel' hdrop]
        exact List.getElem?_mem this
      simp only [applyTrimmed]
      split
      · simp only [List.append_assoc, List.mem_append]
        exact Or.inr (Or.inr hmem)
      · split
        · simp only [List.append_assoc, List.mem_append]
          exact Or.inr (Or.inr hmemdrop)
        · simp only [List.append_assoc, List.mem_append]
          exact Or.inr (Or.inr hmem)

/-- C4 (amended): if the tail window contains a user message, then the last
user message of the tail is in the result of `apply` — provided the
post-safety candidate already fits the budget, so that the degraded final
guard (step 8) does not engage. -/
theorem claim_C4_amended (ct : String → Nat) (p : ContextPolicy) (messages : List Msg)
    (hu : (tailPart p (splitSystem messages).2).any (fun m => m.role == "user") = true)
    (hfit : (countMessages ct (applyTrimmed ct p messages) : Int) ≤ targetBudget p) :
    ∀ u, (tailPart p (splitSystem messages).2)[lastUserIdx
      (tailPart p (splitSystem messages).2)]? = some u →
      u ∈ applyContext ct p messages := by
  intro u hget
  cases messages with
  | nil => simp [splitSystem, tailPart, keepTailN] at hget
  | cons m0 rest =>
      have hmem : u ∈ tailPart p (splitSystem (m0 :: rest)).2 := List.getElem?_mem hget
      simp only [applyContext]
      split
      · simp only [List.append_assoc, List.mem_append]
        exact Or.inr (Or.inr hmem)
      · rw [finalGuard_of_le ct _ _ _ hfit]
        exact mem_applyTrimmed_of_tail_getElem ct p (m0 :: rest) u _ hget le_rfl

/-- C4 witness: a concrete over-budget history where head-trimming suffices;
the last user message of the tail survives. -/
theorem claim_C4_amended_witness :
    ⟨"user", "u2"⟩ ∈ applyContext roughTokenCount ⟨15, 0, 2⟩
      [⟨"system", "s"⟩, ⟨"user", "u1"⟩, ⟨"assistant", "a1"⟩,
       ⟨"user", "u2"⟩, ⟨"assistant", "a2"⟩] :=
  claim_C4_amended roughTokenCount ⟨15, 0, 2⟩
    [⟨"system", "s"⟩, ⟨"user", "u1"⟩, ⟨"assistant", "a1"⟩,
     ⟨"user", "u2"⟩, ⟨"assistant", "a2"⟩]
    (by decide) (by decide) ⟨"user", "u2"⟩ (by decide)

/-- C4 counterexample to the claim as stated: with a tiny budget the final
guard drops the tail's only (hence last) user message; the returned list no
longer contains it. -/
theorem claim_C4_counterexample :
    ((tailPart ⟨1, 0, 2⟩ (splitSystem [⟨"user", "hi"⟩,
        ⟨"assistant", "aaaaaaaaaaaaaaaaaaaa"⟩]).2).any (fun m => m.role == "user") = true) ∧
    (tailPart ⟨1, 0, 2⟩ (splitSystem [⟨"user", "hi"⟩,
        ⟨"assistant", "aaaaaaaaaaaaaaaaaaaa"⟩]).2)[lastUserIdx
      (tailPart ⟨1, 0, 2⟩ (splitSystem [⟨"user", "hi"⟩,
        ⟨"assistant", "aaaaaaaaaaaaaaaaaaaa"⟩]).2)]? = some ⟨"user", "hi"⟩ ∧
    ⟨"user", "hi"⟩ ∉ applyContext roughTokenCount ⟨1, 0, 2⟩
      [⟨"user", "hi"⟩, ⟨"assistant", "aaaaaaaaaaaaaaaaaaaa"⟩] := by
  refine ⟨by decide, by decide, by decide⟩

lemma dropIdxGo_le (ct : String → Nat) (sys head tail : List Msg) (target : Int) :
    ∀ left d, dropIdxGo ct sys head tail target left d ≤ d + left := by
  intro left
  induction left with
  | zero => intro d; simp [dropIdxGo]
  | succ n ih =>
      intro d
      simp only [dropIdxGo]
      split
      · exact le_trans (ih (d + 1)) (by omega)
      · omega

lemma dropIdxGo_post (ct : String → Nat) (sys head tail : List Msg) (target : Int)
    (hbase : (countMessages ct (sys ++ tail) : Int) ≤ target) :
    ∀ left d, head.length ≤ d + left →
      (countMessages ct
        (sys ++ head.drop (dropIdxGo ct sys head tail target left d) ++ tail) : Int) ≤ target := by
  intro left
  induction left with
  | zero =>
      intro d hd
      simp only [dropIdxGo]
      have hnil : head.drop d = [] := List.drop_eq_nil_of_le (by omega)
      rw [hnil]
      simpa using hbase
  | succ n ih =>
      intro d hd
      simp only [dropIdxGo]
      split
      · exact ih (d + 1) (by omega)
      · next hcond => exact le_of_not_lt hcond

lemma pySlice_suffix (a t : List Msg) (ht : t ≠ []) :
    pySliceFrom (a ++ t) (-(t.length : Int)) = t := by
  have htlen : 0 < t.length := List.length_pos.mpr ht
  unfold pySliceFrom
  rw [if_neg (by omega)]
  have harith : (((a ++ t).length : Int) + -(t.length : Int)).toNat = a.length := by
    simp only [List.length_append]
    omega
  rw [harith, List.drop_left]

/-- C5: one system message, 20 alternating user/assistant body messages,
`always_keep_last_n = 4`, budget too small for the full history but large
enough for system plus the last four: the result is the system message, a
suffix of the 16-message head (only oldest-first removals), then exactly
the last four body messages. -/
theorem claim_C5 (ct : String → Nat) (p : ContextPolicy) (sysM : Msg) (body : List Msg)
    (hsys : sysM.role = "system")
    (hlen : body.length = 20)
    (hN : p.alwaysKeepLastN = 4)
    (halt : ∀ i : Fin body.length,
      (body.get i).role = if (i : Nat) % 2 = 0 then "user" else "assistant")
    (hover : (countMessages ct (sysM :: body) : Int) > targetBudget p)
    (hfit : (countMessages ct (sysM :: body.drop 16) : Int) ≤ targetBudget p) :
    ∃ d ≤ 16, applyContext ct p (sysM :: body) =
      sysM :: ((body.take 16).drop d ++ body.drop 16) := by
  have hsplit : splitSystem (sysM :: body) = ([sysM], body) := by
    simp [splitSystem, hsys]
  have hktn : keepTailN p body = 4 := by
    unfold keepTailN
    rw [hN, hlen]
    norm_num
  have h164 : 20 - Int.toNat 4 = 16 := by decide
  have hhead : headPart p body = body.take 16 := by
    unfold headPart
    rw [hktn, if_pos (by norm_num), hlen, h164]
  have htail : tailPart p body = body.drop 16 := by
    unfold tailPart
    rw [hktn, if_pos (by norm_num), hlen, h164]
  have hcand : [sysM] ++ body.take 16 ++ body.drop 16 = sysM :: body := by
    simp [List.take_append_drop]
  have hbase : (countMessages ct ([sysM] ++ body.drop 16) : Int) ≤ targetBudget p := by
    simpa using hfit
  have htaillen : (body.drop 16).length = 4 := by
    rw [List.length_drop, hlen]
  have htailne : body.drop 16 ≠ [] := by
    intro hx
    rw [hx] at htaillen
    simp at htaillen
  have h16mem : body.get ⟨16, by omega⟩ ∈ body.drop 16 := by
    have : (body.drop 16)[0]? = some (body.get ⟨16, by omega⟩) := by
      rw [List.getElem?_drop]
      simp [List.getElem?_eq_getElem]
    exact List.getElem?_mem this
  have h16role : (body.get ⟨16, by omega⟩).role = "user" := by
    have := halt ⟨16, by omega⟩
    norm_num at this
    exact this
  have htailany : (body.drop 16).any (fun m => m.role == "user") = true := by
    rw [List.any_eq_true]
    exact ⟨body.get ⟨16, by omega⟩, h16mem, by rw [h16role]; decide⟩
  set d := dropIdxOf ct [sysM] (body.take 16) (body.drop 16) (targetBudget p) with hd
  have hlen16 : (body.take 16).length = 16 := by
    rw [List.length_take, hlen]
    decide
  have hdle : d ≤ 16 := by
    rw [hd]
    unfold dropIdxOf
    have h := dropIdxGo_le ct [sysM] (body.take 16) (body.drop 16) (targetBudget p)
      (body.take 16).length 0
    rw [hlen16] at h ⊢
    simpa using h
  have hpost : (countMessages ct
      ([sysM] ++ (body.take 16).drop d ++ body.drop 16) : Int) ≤ targetBudget p := by
    exact dropIdxGo_post ct [sysM] (body.take 16) (body.drop 16) (targetBudget p) hbase
      (body.take 16).length 0 (by omega)
  have hslice : pySliceFrom (([sysM] ++ (body.take 16).drop d) ++ body.drop 16)
      (-(keepTailN p body)) = body.drop 16 := by
    rw [hktn]
    have : (4 : Int) = ((body.drop 16).length : Int) := by rw [htaillen]; norm_num
    rw [this]
    exact pySlice_suffix _ _ htailne
  have htrim : applyTrimmed ct p (sysM :: body) =
      [sysM] ++ (body.take 16).drop d ++ body.drop 16 := by
    simp only [applyTrimmed, hsplit, hhead, htail]
    rw [hcand, if_neg (not_le.mpr hover)]
    rw [show ([sysM] ++ (body.take 16).drop d ++ body.drop 16) =
      (([sysM] ++ (body.take 16).drop d) ++ body.drop 16) by simp]
    rw [hslice]
    simp [htailany]
  refine ⟨d, hdle, ?_⟩
  simp only [applyContext, hsplit, hhead, htail]
  rw [hcand, if_neg (not_le.mpr hover)]
  rw [htrim, finalGuard_of_le ct _ _ _ hpost]
  simp

/-- C5 witness: the concrete 21-message history of the spec scenario, with
the heuristic counter and a budget of 30 tokens. -/
theorem claim_C5_witness :
    ∃ d ≤ 16, applyContext roughTokenCount ⟨30, 0, 4⟩
      (⟨"system", "ss"⟩ :: (List.range 20).map
        (fun i => ⟨if i % 2 = 0 then "user" else "assistant", "xxxx"⟩)) =
      ⟨"system", "ss"⟩ ::
        ((((List.range 20).map
          (fun i => ⟨if i % 2 = 0 then "user" else "assistant", "xxxx"⟩)).take 16).drop d ++
         ((List.range 20).map
          (fun i => ⟨if i % 2 = 0 then "user" else "assistant", "xxxx"⟩)).drop 16) :=
  claim_C5 roughTokenCount ⟨30, 0, 4⟩ ⟨"system", "ss"⟩
    ((List.range 20).map (fun i => ⟨if i % 2 = 0 then "user" else "assistant", "xxxx"⟩))
    rfl (by decide) rfl (by decide) (by decide) (by decide)

lemma mem_insertSorted (x y : String) (l : List String) :
    x ∈ insertSorted y l ↔ x = y ∨ x ∈ l := by
  induction l with
  | nil => simp [insertSorted]
  | cons a as ih =>
      simp only [insertSorted]
      split
      · simp [List.mem_cons]
      · simp only [List.mem_cons, ih]
        tauto

lemma mem_sortStrings (x : String) (l : List String) :
    x ∈ sortStrings l ↔ x ∈ l := by
  induction l with
  | nil => simp [sortStrings]
  | cons a as ih => simp [sortStrings, mem_insertSorted, ih]

lemma mem_presentListedKeys (k : String) (listed : List String) (ps : Params) :
    k ∈ presentListedKeys listed ps ↔ k ∈ listed ∧ ps.hasKey k = true := by
  unfold presentListedKeys
  rw [mem_sortStrings]
  simp [List.mem_filter]

lemma hasKey_of_mem (ps : Params) (kv : String × String)
    (h : kv ∈ (ps : List (String × String))) : ps.hasKey kv.1 = true := by
  unfold Params.hasKey
  rw [List.any_eq_true]
  exact ⟨kv, h, by simp⟩

lemma foldl_eraseKey (ks : List String) (ps : Params) :
    ks.foldl (fun eff k => eff.eraseKey k) ps =
      (ps : List (String × String)).filter (fun kv => !(ks.contains kv.1)) := by
  induction ks generalizing ps with
  | nil => simp
  | cons k ks ih =>
      simp only [List.foldl_cons]
      rw [ih]
      show ((ps : List (String × String)).filter (fun kv => kv.1 != k)).filter
          (fun kv => !(ks.contains kv.1)) = _
      rw [List.filter_filter]
      apply List.filter_congr
      intro kv _
      simp only [List.contains_cons, Bool.not_or, bne]
      rw [Bool.and_comm]

lemma toList_append (a b : String) : (a ++ b).toList = a.toList ++ b.toList := by
  simp [String.toList, String.data_append]

lemma infix_append_left {l A B : List Char} (h : l <:+: B) : l <:+: A ++ B :=
  h.trans (List.suffix_append A B).isInfix

lemma infix_append_right {l A B : List Char} (h : l <:+: A) : l <:+: A ++ B :=
  h.trans (List.prefix_append A B).isInfix

lemma mem_infix_pyListReprGo (k : String) (xs : List String) (hk : k ∈ xs) :
    k.toList <:+: (pyListReprGo xs).toList := by
  induction xs with
  | nil => cases hk
  | cons a rest ih =>
      cases rest with
      | nil =>
          have hka : k = a := by simpa using hk
          subst hka
          refine ⟨"'".toList, "'".toList, ?_⟩
          simp [pyListReprGo, toList_append]
      | cons b rest2 =>
          rcases List.mem_cons.mp hk with hka | hkr
          · subst hka
            refine ⟨"'".toList, ("', " ++ pyListReprGo (b :: rest2)).toList, ?_⟩
            simp [pyListReprGo, toList_append]
          · have h := ih hkr
            show k.toList <:+: ("'" ++ a ++ "', " ++ pyListReprGo (b :: rest2)).toList
            rw [toList_append]
            exact infix_append_left h

lemma mem_infix_defaultRuleText (k : String) (prefixText model : String) (keys : List String)
    (hk : k ∈ keys) :
    k.toList <:+: (ruleText none prefixText model keys).toList := by
  have h := mem_infix_pyListReprGo k keys hk
  refine h.trans ?_
  unfold ruleText pyOrElse pyListRepr
  refine ⟨((prefixText ++ " for model '" ++ model ++ "': ") ++ "[").toList, "]".toList, ?_⟩
  simp [toList_append, List.append_assoc]

/-- C7 (amended): `evaluate` acts on the first matching rule only; with no
matching rule the params come back unchanged with no warnings; a matching
drop rule removes exactly the listed keys present (all other entries kept,
in order), and emits exactly one warning when at least one key was removed
(none otherwise) — the warning being the rule's configured message if set,
otherwise the default text enumerating exactly the keys actually removed. -/
theorem claim_C7_amended (pol : ParamPolicy) (model : String) (raw : Params) :
    (pol.firstMatch model = none → pol.evaluate model raw "allow" = .ok (raw, [])) ∧
    (∀ rule, pol.firstMatch model = some rule → rule.action = "drop" →
      pol.evaluate model raw "allow" =
        .ok (raw.filter (fun kv => !(rule.params.contains kv.1)),
          if (presentListedKeys rule.params raw).isEmpty then []
          else [ruleText rule.message "Dropping unsupported params" model
            (presentListedKeys rule.params raw)]) ∧
      (∀ k, k ∈ presentListedKeys rule.params raw ↔ k ∈ rule.params ∧ raw.hasKey k = true) ∧
      (rule.message = none → ∀ k ∈ presentListedKeys rule.params raw,
        k.toList <:+: (ruleText rule.message "Dropping unsupported params" model
          (presentListedKeys rule.params raw)).toList)) := by
  constructor
  · intro hnone
    simp [ParamPolicy.evaluate, hnone]
  · intro rule hmatch hdrop
    refine ⟨?_, fun k => mem_presentListedKeys k rule.params raw, ?_⟩
    · unfold ParamPolicy.evaluate
      rw [hmatch]
      simp only [hdrop, if_pos]
      rw [foldl_eraseKey]
      have hfc : (raw : List (String × String)).filter
          (fun kv => !((presentListedKeys rule.params raw).contains kv.1)) =
          (raw : List (String × String)).filter (fun kv => !(rule.params.contains kv.1)) := by
        apply List.filter_congr
        intro kv hkv
        have hmemiff : kv.1 ∈ presentListedKeys rule.params raw ↔ kv.1 ∈ rule.params := by
          rw [mem_presentListedKeys]
          simp [hasKey_of_mem raw kv hkv]
        congr 1
        rw [Bool.eq_iff_iff, List.elem_iff, List.elem_iff]
        exact hmemiff
      rw [hfc]
    · intro hmsgnone k hkmem
      rw [hmsgnone]
      exact mem_infix_defaultRuleText k _ model _ hkmem

/-- C7 witness: the spec's own scenario — no matching rule leaves params
untouched; a drop rule without a configured message removes the two listed
keys and warns once with the default enumerating text. -/
theorem claim_C7_amended_witness :
    ((⟨[⟨⟨true, "other-family"⟩, "drop", ["temperature"], none⟩]⟩ : ParamPolicy).evaluate
      "gpt-4o-mini" [("temperature", "0.2")] "allow" = .ok ([("temperature", "0.2")], [])) ∧
    ((⟨[⟨⟨true, "gpt-5-nano"⟩, "drop", ["temperature", "top_p"], none⟩]⟩ : ParamPolicy).evaluate
      "gpt-5-nano-x" [("temperature", "0.2"), ("top_p", "0.9"), ("keep", "ok")] "allow" =
      .ok (([("temperature", "0.2"), ("top_p", "0.9"), ("keep", "ok")] : Params).filter
            (fun kv => !((["temperature", "top_p"] : List String).contains kv.1)),
          if (presentListedKeys ["temperature", "top_p"]
              [("temperature", "0.2"), ("top_p", "0.9"), ("keep", "ok")]).isEmpty then []
          else [ruleText none "Dropping unsupported params" "gpt-5-nano-x"
            (presentListedKeys ["temperature", "top_p"]
              [("temperature", "0.2"), ("top_p", "0.9"), ("keep", "ok")])])) :=
  ⟨(claim_C7_amended ⟨[⟨⟨true, "other-family"⟩, "drop", ["temperature"], none⟩]⟩
      "gpt-4o-mini" [("temperature", "0.2")]).1 rfl,
   ((claim_C7_amended ⟨[⟨⟨true, "gpt-5-nano"⟩, "drop", ["temperature", "top_p"], none⟩]⟩
      "gpt-5-nano-x" [("temperature", "0.2"), ("top_p", "0.9"), ("keep", "ok")]).2
      ⟨⟨true, "gpt-5-nano"⟩, "drop", ["temperature", "top_p"], none⟩ rfl rfl).1⟩

/-- C7 counterexample to the claim as stated: a matching drop rule with a
configured message removes the key "temperature" and emits exactly one
warning — but that warning is the rule's message verbatim and does not
mention (let alone enumerate) the removed key. -/
theorem claim_C7_counterexample :
    (⟨[⟨⟨true, "gpt-5-nano"⟩, "drop", ["temperature"], some "custom"⟩]⟩ : ParamPolicy).evaluate
        "gpt-5-nano-x" [("temperature", "0.2"), ("keep", "ok")] "allow" =
      .ok ([("keep", "ok")], ["custom"]) ∧
    presentListedKeys ["temperature"] [("temperature", "0.2"), ("keep", "ok")] =
      ["temperature"] ∧
    ¬ ("temperature".toList <:+: "custom".toList) :=
  ⟨rfl, rfl, by decide⟩

/-- C8: a matching reject rule fails if and only if one of its listed
params is present, the raised configuration error carries the rule's
(non-empty) message verbatim, and a non-raising call hands the caller's
params back unchanged — `evaluate` works on a copy and never mutates its
argument. -/
theorem claim_C8 (pol : ParamPolicy) (model : String) (raw : Params)
    (rule : PolicyRule) (m : String)
    (hmatch : pol.firstMatch model = some rule)
    (hact : rule.action = "reject")
    (hmsg : rule.message = some m) (hm : m ≠ "") :
    ((∃ k ∈ rule.params, raw.hasKey k = true) →
      pol.evaluate model raw "allow" = .error m) ∧
    ((¬ ∃ k ∈ rule.params, raw.hasKey k = true) →
      pol.evaluate model raw "allow" = .ok (raw, [])) := by
  have hmain : pol.evaluate model raw "allow" =
      (if (presentListedKeys rule.params raw).isEmpty then .ok (raw, [])
       else .error (ruleText rule.message "Unsupported params" model
         (presentListedKeys rule.params raw))) := by
    unfold ParamPolicy.evaluate
    rw [hmatch]
    simp only [hact]
    rw [if_neg (by decide)]
    simp
  constructor
  · rintro ⟨k, hk, hhk⟩
    have hbadmem : k ∈ presentListedKeys rule.params raw :=
      (mem_presentListedKeys k rule.params raw).mpr ⟨hk, hhk⟩
    have hbadne : (presentListedKeys rule.params raw).isEmpty = false := by
      rw [List.isEmpty_eq_false]
      exact List.ne_nil_of_mem hbadmem
    rw [hmain, hbadne]
    simp only [Bool.false_eq_true, if_false]
    unfold ruleText pyOrElse
    rw [hmsg]
    simp [hm]
  · intro hno
    have hbad : presentListedKeys rule.params raw = [] := by
      rcases hx : presentListedKeys rule.params raw with _ | ⟨k, rest⟩
      · rfl
      · exfalso
        have : k ∈ presentListedKeys rule.params raw := by rw [hx]; exact List.mem_cons_self k rest
        obtain ⟨h1, h2⟩ := (mem_presentListedKeys k rule.params raw).mp this
        exact hno ⟨k, h1, h2⟩
    rw [hmain, hbad]
    rfl

/-- C8 witness: a concrete reject rule raises its configured message when
`temperature` is present, and passes an unrelated param map through
unchanged. -/
theorem claim_C8_witness :
    ((⟨[⟨⟨true, "gpt-5-nano"⟩, "reject", ["temperature"],
        some "Remove temperature for nano models."⟩]⟩ : ParamPolicy).evaluate
        "gpt-5-nano-2025-08-07" [("temperature", "0.2")] "allow" =
      .error "Remove temperature for nano models.") ∧
    ((⟨[⟨⟨true, "gpt-5-nano"⟩, "reject", ["temperature"],
        some "Remove temperature for nano models."⟩]⟩ : ParamPolicy).evaluate
        "gpt-5-nano-2025-08-07" [("top_p", "0.9")] "allow" = .ok ([("top_p", "0.9")], [])) :=
  ⟨(claim_C8 ⟨[⟨⟨true, "gpt-5-nano"⟩, "reject", ["temperature"],
        some "Remove temperature for nano models."⟩]⟩ "gpt-5-nano-2025-08-07"
      [("temperature", "0.2")]
      ⟨⟨true, "gpt-5-nano"⟩, "reject", ["temperature"],
        some "Remove temperature for nano models."⟩
      "Remove temperature for nano models." rfl rfl rfl (by decide)).1
      ⟨"temperature", by decide, by decide⟩,
   (claim_C8 ⟨[⟨⟨true, "gpt-5-nano"⟩, "reject", ["temperature"],
        some "Remove temperature for nano models."⟩]⟩ "gpt-5-nano-2025-08-07"
      [("top_p", "0.9")]
      ⟨⟨true, "gpt-5-nano"⟩, "reject", ["temperature"],
        some "Remove temperature for nano models."⟩
      "Remove temperature for nano models." rfl rfl rfl (by decide)).2 (by decide)⟩

lemma projectMessages_appendMessage (t : Transcript) (r c s : String)
    (h : projectMessages t.records = t.messages) :
    projectMessages (t.appendMessage r c s).records = (t.appendMessage r c s).messages := by
  unfold projectMessages at h ⊢
  by_cases hv : r ∈ validRoles <;>
    simp [Transcript.appendMessage, List.filterMap_append, projectRecord, hv, h]

lemma foldAppends_project (appends : List (String × String × String)) :
    ∀ t0 : Transcript, projectMessages t0.records = t0.messages →
      projectMessages (foldAppends appends t0).records = (foldAppends appends t0).messages := by
  induction appends with
  | nil => intro t0 h; exact h
  | cons x xs ih =>
      intro t0 h
      show projectMessages (foldAppends xs (t0.appendMessage x.1 x.2.1 x.2.2)).records = _
      exact ih _ (projectMessages_appendMessage t0 x.1 x.2.1 x.2.2 h)

lemma foldAppends_messages_ext (appends : List (String × String × String)) :
    ∀ t0 : Transcript, ∃ ext, (foldAppends appends t0).messages = t0.messages ++ ext := by
  induction appends with
  | nil => intro t0; exact ⟨[], by simp [foldAppends]⟩
  | cons x xs ih =>
      intro t0
      obtain ⟨ext, hext⟩ := ih (t0.appendMessage x.1 x.2.1 x.2.2)
      show ∃ ext', (foldAppends xs (t0.appendMessage x.1 x.2.1 x.2.2)).messages = _
      by_cases hv : x.1 ∈ validRoles
      · exact ⟨⟨x.1, x.2.1⟩ :: ext, by
          rw [hext]; simp [Transcript.appendMessage, hv]⟩
      · exact ⟨ext, by rw [hext]; simp [Transcript.appendMessage, hv]⟩

lemma foldAppends_messages_valid (appends : List (String × String × String)) :
    ∀ t0 : Transcript, (∀ x ∈ appends, validRoles.contains x.1 = true) →
      (foldAppends appends t0).messages =
        t0.messages ++ appends.map (fun rcs => ⟨rcs.1, rcs.2.1⟩) := by
  induction appends with
  | nil => intro t0 _; simp [foldAppends]
  | cons x xs ih =>
      intro t0 hvalid
      show (foldAppends xs (t0.appendMessage x.1 x.2.1 x.2.2)).messages = _
      rw [ih _ (fun y hy => hvalid y (List.mem_cons_of_mem x hy))]
      have hv : x.1 ∈ validRoles := by simpa using hvalid x (List.mem_cons_self x xs)
      simp [Transcript.appendMessage, hv]

/-- C6: write N messages to a durable transcript, then construct a new
transcript over the same record stream (same root dir and session id): the
in-memory projection is reproduced identically — and, when the appended
roles are valid, it is the system message followed by exactly the appended
messages, same roles, contents and order. -/
theorem claim_C6 (prompt : String) (meta : List (String × String))
    (appends : List (String × String × String)) :
    (Transcript.initResume prompt
        (foldAppends appends (Transcript.initDurableFresh prompt meta)).records).messages =
      (foldAppends appends (Transcript.initDurableFresh prompt meta)).messages ∧
    ((∀ x ∈ appends, validRoles.contains x.1 = true) →
      (foldAppends appends (Transcript.initDurableFresh prompt meta)).messages =
        ⟨"system", prompt⟩ :: appends.map (fun rcs => ⟨rcs.1, rcs.2.1⟩)) := by
  have hbase : projectMessages (Transcript.initDurableFresh prompt meta).records =
      (Transcript.initDurableFresh prompt meta).messages := rfl
  have hproj := foldAppends_project appends _ hbase
  obtain ⟨ext, hext⟩ := foldAppends_messages_ext appends (Transcript.initDurableFresh prompt meta)
  constructor
  · simp only [Transcript.initResume, hproj, hext]
    simp [Transcript.initDurableFresh]
  · intro hvalid
    rw [foldAppends_messages_valid appends _ hvalid]
    simp [Transcript.initDurableFresh]

/-- C6 witness: two appended messages round-trip through resume. -/
theorem claim_C6_witness :
    (Transcript.initResume "sys"
        (foldAppends [("user", "hi", "complete"), ("assistant", "yo", "complete")]
          (Transcript.initDurableFresh "sys" [])).records).messages =
      (foldAppends [("user", "hi", "complete"), ("assistant", "yo", "complete")]
        (Transcript.initDurableFresh "sys" [])).messages ∧
    (foldAppends [("user", "hi", "complete"), ("assistant", "yo", "complete")]
        (Transcript.initDurableFresh "sys" [])).messages =
      ⟨"system", "sys"⟩ :: [("user", "hi", "complete"),
        ("assistant", "yo", "complete")].map (fun rcs => ⟨rcs.1, rcs.2.1⟩) :=
  ⟨(claim_C6 "sys" [] [("user", "hi", "complete"), ("assistant", "yo", "complete")]).1,
   (claim_C6 "sys" [] [("user", "hi", "complete"), ("assistant", "yo", "complete")]).2
     (by decide)⟩

/-- C9: after construction — fresh in-memory, fresh durable, or resumed from
any existing record stream (even one whose replayed messages lack a leading
system message) — the in-memory projection is non-empty and starts with a
system-role message; `append_message` preserves this, only ever appending
at the end. -/
theorem claim_C9 :
    (∀ (prompt : String) (meta : List (String × String)),
      ∃ c rest, (Transcript.initInMemory prompt meta).messages = ⟨"system", c⟩ :: rest) ∧
    (∀ (prompt : String) (meta : List (String × String)),
      ∃ c rest, (Transcript.initDurableFresh prompt meta).messages = ⟨"system", c⟩ :: rest) ∧
    (∀ (prompt : String) (existing : List TRecord),
      ∃ c rest, (Transcript.initResume prompt existing).messages = ⟨"system", c⟩ :: rest) ∧
    (∀ (t : Transcript) (role content status : String),
      (∃ c rest, t.messages = ⟨"system", c⟩ :: rest) →
      (∃ c rest, (t.appendMessage role content status).messages = ⟨"system", c⟩ :: rest) ∧
      ((t.appendMessage role content status).messages = t.messages ∨
       (t.appendMessage role content status).messages = t.messages ++ [⟨role, content⟩])) := by
  refine ⟨fun prompt meta => ⟨prompt, [], rfl⟩, fun prompt meta => ⟨prompt, [], rfl⟩, ?_, ?_⟩
  · intro prompt existing
    simp only [Transcript.initResume]
    rcases hm : projectMessages existing with _ | ⟨m0, ms⟩
    · exact ⟨prompt, [], rfl⟩
    · by_cases hrole : m0.role = "system"
      · refine ⟨m0.content, ms, ?_⟩
        cases m0
        simp_all
      · exact ⟨prompt, m0 :: ms, by simp [hrole]⟩
  · intro t role content status ⟨c, rest, hhead⟩
    constructor
    · by_cases hv : role ∈ validRoles
      · exact ⟨c, rest ++ [⟨role, content⟩], by
          simp [Transcript.appendMessage, hv, hhead]⟩
      · exact ⟨c, rest, by simp [Transcript.appendMessage, hv, hhead]⟩
    · by_cases hv : role ∈ validRoles
      · right; simp [Transcript.appendMessage, hv]
      · left; simp [Transcript.appendMessage, hv]

/-- C9 witness: a resume over a garbage log still yields a leading system
message, and an append on a fresh transcript extends it at the end. -/
theorem claim_C9_witness :
    (∃ c rest, (Transcript.initResume "sys"
      [TRecord.malformed, TRecord.message "user" "hi" "complete"]).messages =
        ⟨"system", c⟩ :: rest) ∧
    (∃ c rest, ((Transcript.initInMemory "sys" []).appendMessage "user" "hi"
      "complete").messages = ⟨"system", c⟩ :: rest) ∧
    (((Transcript.initInMemory "sys" []).appendMessage "user" "hi" "complete").messages =
      (Transcript.initInMemory "sys" []).messages ∨
     ((Transcript.initInMemory "sys" []).appendMessage "user" "hi" "complete").messages =
      (Transcript.initInMemory "sys" []).messages ++ [⟨"user", "hi"⟩]) :=
  ⟨claim_C9.2.2.1 "sys" [TRecord.malformed, TRecord.message "user" "hi" "complete"],
   (claim_C9.2.2.2 (Transcript.initInMemory "sys" []) "user" "hi" "complete"
     ⟨"sys", [], rfl⟩).1,
   (claim_C9.2.2.2 (Transcript.initInMemory "sys" []) "user" "hi" "complete"
     ⟨"sys", [], rfl⟩).2⟩

lemma consumeTurnStream_spec (innerFails : Bool) :
    ∀ (chunks : List String) (demand : Option Nat) (acc : List String) (t : Transcript),
      (consumeTurnStream innerFails chunks demand acc t).finCount = 1 ∧
      (consumeTurnStream innerFails chunks demand acc t).t =
        finalizeTurn (acc ++ (consumeTurnStream innerFails chunks demand acc t).yielded) t := by
  intro chunks
  induction chunks with
  | nil =>
      intro demand acc t
      match demand with
      | some 0 => exact ⟨rfl, by simp [consumeTurnStream]⟩
      | some (n + 1) => exact ⟨rfl, by simp [consumeTurnStream]⟩
      | none => exact ⟨rfl, by simp [consumeTurnStream]⟩
  | cons c rest ih =>
      intro demand acc t
      match demand with
      | some 0 => exact ⟨rfl, by simp [consumeTurnStream]⟩
      | some (n + 1) =>
          have h := ih (some n) (acc ++ [c]) t
          refine ⟨h.1, ?_⟩
          show (consumeTurnStream innerFails rest (some n) (acc ++ [c]) t).t = _
          rw [h.2]
          simp [consumeTurnStream]
      | none =>
          have h := ih none (acc ++ [c]) t
          refine ⟨h.1, ?_⟩
          show (consumeTurnStream innerFails rest none (acc ++ [c]) t).t = _
          rw [h.2]
          simp [consumeTurnStream]

/-- C3 (amended): once the turn's generator has been started, whichever way
the consumed stream ends — exhausted, closed early by the caller, or failed
by the inner stream — the finalizer runs exactly once; a non-empty
accumulated text is appended exactly once, as one assistant message record
whose status is 'complete' (append_message's default); an empty one appends
nothing. A generator closed before its first read never runs at all. -/
theorem claim_C3_amended (t0 : Transcript) (userText : String) (chunks : List String)
    (innerFails : Bool) (demand : Option Nat) (hstart : demand ≠ some 0) :
    (runTurnStream t0 userText chunks innerFails demand).finCount = 1 ∧
    ((runTurnStream t0 userText chunks innerFails demand).yielded = [] →
      (runTurnStream t0 userText chunks innerFails demand).t =
        t0.appendMessage "user" userText "complete") ∧
    ((runTurnStream t0 userText chunks innerFails demand).yielded ≠ [] →
      (runTurnStream t0 userText chunks innerFails demand).t =
        (t0.appendMessage "user" userText "complete").appendMessage "assistant"
          (String.join (runTurnStream t0 userText chunks innerFails demand).yielded)
          "complete") := by
  have hrun : runTurnStream t0 userText chunks innerFails demand =
      consumeTurnStream innerFails chunks demand []
        (t0.appendMessage "user" userText "complete") := by
    simp [runTurnStream, hstart]
  have hspec := consumeTurnStream_spec innerFails chunks demand []
    (t0.appendMessage "user" userText "complete")
  rw [hrun]
  refine ⟨hspec.1, ?_, ?_⟩
  · intro hy
    rw [hspec.2, hy]
    simp [finalizeTurn]
  · intro hy
    rw [hspec.2]
    simp only [List.nil_append]
    unfold finalizeTurn
    rw [if_neg (by simpa using hy)]

/-- C3 witness: the three end kinds on concrete runs — close after one chunk
of two, run to normal end, inner failure before any chunk. -/
theorem claim_C3_amended_witness :
    ((runTurnStream (Transcript.initInMemory "sys" []) "go" ["par", "more"] false
        (some 1)).finCount = 1 ∧
      ((runTurnStream (Transcript.initInMemory "sys" []) "go" ["par", "more"] false
        (some 1)).yielded ≠ [] →
        (runTurnStream (Transcript.initInMemory "sys" []) "go" ["par", "more"] false
          (some 1)).t =
        ((Transcript.initInMemory "sys" []).appendMessage "user" "go"
          "complete").appendMessage "assistant"
          (String.join (runTurnStream (Transcript.initInMemory "sys" []) "go"
            ["par", "more"] false (some 1)).yielded) "complete")) ∧
    ((runTurnStream (Transcript.initInMemory "sys" []) "go" [] true none).finCount = 1 ∧
      ((runTurnStream (Transcript.initInMemory "sys" []) "go" [] true none).yielded = [] →
        (runTurnStream (Transcript.initInMemory "sys" []) "go" [] true none).t =
          (Transcript.initInMemory "sys" []).appendMessage "user" "go" "complete")) :=
  ⟨⟨(claim_C3_amended (Transcript.initInMemory "sys" []) "go" ["par", "more"] false
      (some 1) (by decide)).1,
    (claim_C3_amended (Transcript.initInMemory "sys" []) "go" ["par", "more"] false
      (some 1) (by decide)).2.2⟩,
   ⟨(claim_C3_amended (Transcript.initInMemory "sys" []) "go" [] true none
      (by decide)).1,
    (claim_C3_amended (Transcript.initInMemory "sys" []) "go" [] true none
      (by decide)).2.1⟩⟩

/-- C3 counterexample to the claim as stated: a streamed turn cancelled
after one chunk persists the partial text as one assistant record — but
that record's status is 'complete', not 'partial'; no record with status
'partial' exists anywhere in the transcript. -/
theorem claim_C3_counterexample :
    (runTurnStream (Transcript.initInMemory "sys" []) "go" ["par", "more"] false
      (some 1)).yielded = ["par"] ∧
    (runTurnStream (Transcript.initInMemory "sys" []) "go" ["par", "more"] false
      (some 1)).t.records.getLast? = some (.message "assistant" "par" "complete") ∧
    ((runTurnStream (Transcript.initInMemory "sys" []) "go" ["par", "more"] false
      (some 1)).t.records.all (fun rec =>
        match rec with
        | .message _ _ s => s != "partial"
        | _ => true)) = true := by
  refine ⟨by decide, by decide, by decide⟩

lemma chatLoop_always_retry (p : ResiliencePolicy) (inner : Nat → AttemptOutcome)
    (elapsedAfter : Nat → Int)
    (hfail : ∀ i, ∃ e, inner i = .raises e ∧ shouldRetry p e = true)
    (htime : ∀ i, elapsedAfter i < p.totalTimeout) :
    ∀ k attempt, p.maxRetries - attempt = k → attempt ≤ p.maxRetries →
      ∃ e, inner p.maxRetries = .raises e ∧
        chatLoop p inner elapsedAfter attempt =
          ⟨k + 1, k, .fatal ("Provider failed after retries: " ++ errText e) e⟩ := by
  intro k
  induction k with
  | zero =>
      intro attempt hk hle
      have hmax : attempt = p.maxRetries := by omega
      obtain ⟨e, he, _⟩ := hfail attempt
      refine ⟨e, by rwa [hmax] at he, ?_⟩
      rw [chatLoop, he]
      dsimp only
      rw [dif_pos (Or.inr (Or.inl (le_of_eq hmax.symm)))]
  | succ n ih =>
      intro attempt hk hle
      have hlt : attempt < p.maxRetries := by omega
      obtain ⟨e, he, hr⟩ := hfail attempt
      obtain ⟨e2, he2, heq⟩ := ih (attempt + 1) (by omega) (by omega)
      refine ⟨e2, he2, ?_⟩
      rw [chatLoop, he]
      dsimp only
      rw [dif_neg]
      · rw [heq]
      · push_neg
        exact ⟨by simp [hr], by omega, htime attempt⟩

/-- C1: with every inner attempt raising a retryable error and the clock
staying below `total_timeout`, `chat` calls the inner provider exactly
`max_retries + 1` times, sleeps a backoff exactly `max_retries` times, and
then raises the wrapped terminal error carrying the last attempt's
underlying cause. -/
theorem claim_C1 (p : ResiliencePolicy) (inner : Nat → AttemptOutcome)
    (elapsedAfter : Nat → Int)
    (hfail : ∀ i, ∃ e, inner i = .raises e ∧ shouldRetry p e = true)
    (htime : ∀ i, elapsedAfter i < p.totalTimeout) :
    ∃ e, inner p.maxRetries = .raises e ∧
      resilientChat p inner elapsedAfter =
        ⟨p.maxRetries + 1, p.maxRetries,
          .fatal ("Provider failed after retries: " ++ errText e) e⟩ :=
  chatLoop_always_retry p inner elapsedAfter hfail htime p.maxRetries 0 (by omega) (by omega)

/-- C1 witness: a policy with two retries over an inner provider that always
raises a retryable timeout; three calls, two sleeps, terminal wrapped error. -/
theorem claim_C1_witness :
    ∃ e, (fun _ : Nat => AttemptOutcome.raises ⟨"TimeoutError", none, none, "boom"⟩) 2 =
        AttemptOutcome.raises e ∧
      resilientChat ⟨2, 100, [429, 500, 502, 503, 504], ["TimeoutError"]⟩
        (fun _ => .raises ⟨"TimeoutError", none, none, "boom"⟩) (fun _ => 0) =
        ⟨3, 2, .fatal ("Provider failed after retries: " ++ errText e) e⟩ :=
  claim_C1 ⟨2, 100, [429, 500, 502, 503, 504], ["TimeoutError"]⟩
    (fun _ => .raises ⟨"TimeoutError", none, none, "boom"⟩) (fun _ => 0)
    (fun _ => ⟨⟨"TimeoutError", none, none, "boom"⟩, rfl, by decide⟩)
    (fun _ => show (0 : Int) < 100 by decide)

lemma chatStreamLoop_midreply (p : ResiliencePolicy) (inner : Nat → StreamAttempt)
    (elapsedAfter : Nat → Int) (i : Nat) (e : PyError)
    (hcur : (inner i).chunks ≠ []) (hend : (inner i).ending = .raises e) :
    ∀ k attempt, i - attempt = k → attempt ≤ i → i ≤ p.maxRetries →
      (∀ j, attempt ≤ j → j < i → (inner j).chunks = [] ∧
        ∃ ej, (inner j).ending = .raises ej ∧ shouldRetry p ej = true ∧
          elapsedAfter j < p.totalTimeout) →
      chatStreamLoop p inner elapsedAfter attempt false =
        ⟨(inner i).chunks, k + 1, k,
          .fatal ("Provider stream failed mid-reply: " ++ errText e) e⟩ := by
  intro k
  induction k with
  | zero =>
      intro attempt hk hle hmax hpre
      have hai : attempt = i := by omega
      subst hai
      have hya : (false || !(inner attempt).chunks.isEmpty) = true := by
        simp [hcur]
      rw [chatStreamLoop]
      dsimp only
      rw [hend]
      dsimp only
      rw [if_pos hya]
  | succ n ih =>
      intro attempt hk hle hmax hpre
      obtain ⟨hempty, ej, hej, hr, ht⟩ := hpre attempt le_rfl (by omega)
      have hya : (false || !(inner attempt).chunks.isEmpty) = false := by
        simp [hempty]
      rw [chatStreamLoop]
      dsimp only
      rw [hej]
      dsimp only
      rw [if_neg (by simp [hya, hempty])]
      rw [dif_neg (by push_neg; exact ⟨by simp [hr], by omega, ht⟩)]
      have hrec := ih (attempt + 1) (by omega) (by omega) hmax
        (fun j hj1 hj2 => hpre j (by omega) hj2)
      rw [show (false || !(inner attempt).chunks.isEmpty) = false from hya] at *
      rw [hempty]
      rw [hrec]
      simp

lemma chatStreamLoop_eq_chatLoop (p : ResiliencePolicy) (errOf : Nat → PyError)
    (elapsedAfter : Nat → Int) :
    ∀ k attempt, p.maxRetries - attempt = k →
      ∃ e n, 1 ≤ n ∧
        chatLoop p (fun i => .raises (errOf i)) elapsedAfter attempt =
          ⟨n, n - 1, .fatal ("Provider failed after retries: " ++ errText e) e⟩ ∧
        chatStreamLoop p (fun i => ⟨[], .raises (errOf i)⟩) elapsedAfter attempt false =
          ⟨[], n, n - 1, .fatal ("Provider stream failed after retries: " ++ errText e) e⟩ := by
  intro k
  induction k with
  | zero =>
      intro attempt hk
      have hC : shouldRetry p (errOf attempt) = false ∨ p.maxRetries ≤ attempt ∨
          p.totalTimeout ≤ elapsedAfter attempt := Or.inr (Or.inl (by omega))
      refine ⟨errOf attempt, 1, le_rfl, ?_, ?_⟩
      · rw [chatLoop]
        dsimp only
        rw [dif_pos hC]
      · rw [chatStreamLoop]
        dsimp only
        rw [dif_pos hC]
        simp
  | succ n1 ih =>
      intro attempt hk
      by_cases hC : shouldRetry p (errOf attempt) = false ∨ p.maxRetries ≤ attempt ∨
          p.totalTimeout ≤ elapsedAfter attempt
      · refine ⟨errOf attempt, 1, le_rfl, ?_, ?_⟩
        · rw [chatLoop]
          dsimp only
          rw [dif_pos hC]
        · rw [chatStreamLoop]
          dsimp only
          rw [dif_pos hC]
          simp
      · obtain ⟨e, n, hn, hc, hs⟩ := ih (attempt + 1) (by push_neg at hC; omega)
        refine ⟨e, n + 1, by omega, ?_, ?_⟩
        · rw [chatLoop]
          dsimp only
          rw [dif_neg hC, hc]
          have harith : n - 1 + 1 = n + 1 - 1 := by omega
          rw [harith]
        · rw [chatStreamLoop]
          dsimp only
          rw [dif_neg hC]
          simp only [List.isEmpty_nil, Bool.not_true, Bool.or_self, Bool.false_eq_true,
            if_false]
          rw [hs]
          have harith : n - 1 + 1 = n + 1 - 1 := by omega
          simp [harith]

/-- C2: (a) once an attempt has yielded at least one chunk, a failure is
terminal — the stream ends with the mid-reply fatal error immediately after
that attempt, with no further inner attempt, sleep or chunk, whatever the
error's retryability or the remaining budget; (b) failures before the first
chunk follow exactly the retry decision of `chat`: over any all-failing
chunkless inner provider, `chat_stream` makes the same number of calls and
sleeps as `chat` and surfaces the same last cause. -/
theorem claim_C2 (p : ResiliencePolicy) (elapsedAfter : Nat → Int) :
    (∀ (inner : Nat → StreamAttempt) (i : Nat) (e : PyError),
      i ≤ p.maxRetries →
      (∀ j, j < i → (inner j).chunks = [] ∧ ∃ ej, (inner j).ending = .raises ej ∧
        shouldRetry p ej = true ∧ elapsedAfter j < p.totalTimeout) →
      (inner i).chunks ≠ [] → (inner i).ending = .raises e →
      resilientChatStream p inner elapsedAfter =
        ⟨(inner i).chunks, i + 1, i,
          .fatal ("Provider stream failed mid-reply: " ++ errText e) e⟩) ∧
    (∀ errOf : Nat → PyError,
      ∃ e n, 1 ≤ n ∧
        resilientChat p (fun i => .raises (errOf i)) elapsedAfter =
          ⟨n, n - 1, .fatal ("Provider failed after retries: " ++ errText e) e⟩ ∧
        resilientChatStream p (fun i => ⟨[], .raises (errOf i)⟩) elapsedAfter =
          ⟨[], n, n - 1,
            .fatal ("Provider stream failed after retries: " ++ errText e) e⟩) :=
  ⟨fun inner i e hi hpre hcur hend =>
    chatStreamLoop_midreply p inner elapsedAfter i e hcur hend i 0 (by omega) (by omega)
      hi (fun j _ hj => hpre j hj),
   fun errOf =>
    chatStreamLoop_eq_chatLoop p errOf elapsedAfter p.maxRetries 0 (by omega)⟩

/-- C2 witness: a first attempt that yields one chunk then raises a
retryable error still ends mid-reply (no retry); chunkless failures retry
like `chat` on a concrete two-retry policy. -/
theorem claim_C2_witness :
    (resilientChatStream ⟨2, 100, [429], ["TimeoutError"]⟩
      (fun _ => ⟨["c1"], .raises ⟨"TimeoutError", none, none, "mid"⟩⟩) (fun _ => 0) =
      ⟨["c1"], 1, 0, .fatal ("Provider stream failed mid-reply: " ++
        errText ⟨"TimeoutError", none, none, "mid"⟩) ⟨"TimeoutError", none, none, "mid"⟩⟩) ∧
    (∃ e n, 1 ≤ n ∧
      resilientChat ⟨2, 100, [429], ["TimeoutError"]⟩
        (fun i => .raises ((fun _ => ⟨"TimeoutError", none, none, "boom"⟩) i)) (fun _ => 0) =
        ⟨n, n - 1, .fatal ("Provider failed after retries: " ++ errText e) e⟩ ∧
      resilientChatStream ⟨2, 100, [429], ["TimeoutError"]⟩
        (fun i => ⟨[], .raises ((fun _ => ⟨"TimeoutError", none, none, "boom"⟩) i)⟩)
          (fun _ => 0) =
        ⟨[], n, n - 1,
          .fatal ("Provider stream failed after retries: " ++ errText e) e⟩) :=
  ⟨(claim_C2 ⟨2, 100, [429], ["TimeoutError"]⟩ (fun _ => 0)).1
      (fun _ => ⟨["c1"], .raises ⟨"TimeoutError", none, none, "mid"⟩⟩) 0
      ⟨"TimeoutError", none, none, "mid"⟩ (by omega)
      (fun j hj => absurd hj (by omega)) (by decide) rfl,
   (claim_C2 ⟨2, 100, [429], ["TimeoutError"]⟩ (fun _ => 0)).2
      (fun _ => ⟨"TimeoutError", none, none, "boom"⟩)⟩
